import Mathlib

/-!
Verification of the adaptive screen-capture and batched-analysis pipeline
(`src/hooks/use-screen-capture.ts`, `src/app/api/analyze/batch/route.ts`,
`src/app/api/analyze/summarize/route.ts`).

The capture hook is modelled as a state machine driven by the two timers of the
source: the capture `setInterval` callback (`tick`) and the 5000ms buffer
process interval (`bufferProcessTick`).  The interval callback is a single
JavaScript closure created once in `startPeriodicCapture`; the React state
values it closes over (`captureCount`, and the `captureRate` passed to
`setInterval`) are therefore frozen at their values from the render in which
the interval was created.  The model keeps those frozen copies
(`renderCaptureCount`, `intervalDelay`) separate from the evolving React state
(`captureCount`, `captureRate`), exactly as JavaScript closure semantics
dictate.
-/

/-- Wrap an integer to JavaScript 32-bit signed semantics (the `hash & hash`
coercion in `simpleHash`). -/
def int32 (n : Int) : Int := (n + 2147483648) % 4294967296 - 2147483648

/-- One step of the hash loop of `simpleHash`:
`hash = ((hash << 5) - hash) + char; hash = hash & hash`.
`hash << 5` operates on 32-bit signed integers, hence the inner wrap. -/
def hashStep (h : Int) (c : Nat) : Int := int32 (int32 (32 * h) - h + c)

/-- `simpleHash` from `use-screen-capture.ts`, folded over the character codes
of the screenshot data URL.  Frames are JPEG data URLs, hence ASCII, so the
Unicode code points coincide with the UTF-16 units read by `charCodeAt`.  The
source renders the hash with `toString(16)` (an injective map from 32-bit
integers to nonempty strings) and stores it in `lastFrameHashRef`, whose
initial value is the empty string; we model the stored string as `Option Int`,
with `none` standing for the initial `''`. -/
def simpleHash (s : String) : Int := s.data.foldl (fun h c => hashStep h c.toNat) 0

/-- The mutable state of one capture session in `use-screen-capture.ts`.
`lastFrameHash` models `lastFrameHashRef`, `frameBuffer` models
`frameBufferRef`, `captureRate` and `captureCount` the React state of the same
names.  `renderCaptureCount` is the value of `captureCount` captured by the
interval callback closure (0 at session start); `intervalDelay` is the delay
the `setInterval` call was created with.  `notifications` records the values
passed to `onFrameCapture`, `keptLog` records the keep/discard decision of
each evaluated frame, and `flushed` the batches handed to
`analyzeScreenshots`. -/
structure CaptureState where
  lastFrameHash : Option Int
  frameBuffer : List String
  captureRate : Nat
  captureCount : Nat
  renderCaptureCount : Nat
  intervalDelay : Nat
  notifications : List Nat
  keptLog : List Bool
  flushed : List (List String)
  deriving DecidableEq

/-- Session state right after `startPeriodicCapture` runs: counters reset,
buffer and stored hash cleared, rate at its initial 1000ms, and the interval
created with the then-current `captureRate` of 1000ms. -/
def initState : CaptureState :=
  { lastFrameHash := none
    frameBuffer := []
    captureRate := 1000
    captureCount := 0
    renderCaptureCount := 0
    intervalDelay := 1000
    notifications := []
    keptLog := []
    flushed := [] }

/-- `lastFrameHashRef.current !== frameHash` for the incoming frame. -/
def isDifferentB (st : CaptureState) (frame : String) : Bool :=
  decide (st.lastFrameHash ≠ some (simpleHash frame))

/-- The keep condition of the tick callback:
`isDifferent || frameBufferRef.current.length === 0`. -/
def keepsFrame (st : CaptureState) (frame : String) : Bool :=
  isDifferentB st frame || decide (st.frameBuffer = [])

/-- `processFrameBuffer`: returns unchanged on an empty buffer, otherwise
atomically clears the buffer and dispatches its contents as one batch. -/
def processFrameBuffer (st : CaptureState) : CaptureState :=
  if st.frameBuffer = [] then st
  else { st with frameBuffer := [], flushed := st.flushed ++ [st.frameBuffer] }

/-- The size trigger at the end of the kept branch:
`if (frameBufferRef.current.length >= 5) await processFrameBuffer()`. -/
def maybeFlushAtThreshold (st : CaptureState) : CaptureState :=
  if 5 ≤ st.frameBuffer.length then processFrameBuffer st else st

/-- The kept branch of the tick callback: bump the (closure-stale) frame
count, push the frame, store its fingerprint, notify `onFrameCapture`, and
adapt the capture rate — decrease by 100 (floor 500) when the frame differed,
increase by 100 (cap 2000) when it was kept only because the buffer was
empty. -/
def tickKeep (st : CaptureState) (frame : String) : CaptureState :=
  { st with
    captureCount := st.renderCaptureCount + 1
    frameBuffer := st.frameBuffer ++ [frame]
    lastFrameHash := some (simpleHash frame)
    notifications := st.notifications ++ [st.renderCaptureCount + 1]
    captureRate :=
      if isDifferentB st frame then max 500 (st.captureRate - 100)
      else min 2000 (st.captureRate + 100)
    keptLog := st.keptLog ++ [true] }

/-- One firing of the capture interval callback with screenshot `frame`. -/
def tick (st : CaptureState) (frame : String) : CaptureState :=
  if keepsFrame st frame then maybeFlushAtThreshold (tickKeep st frame)
  else { st with keptLog := st.keptLog ++ [false] }

/-- One firing of the 5000ms `bufferProcessInterval` callback:
`if (frameBufferRef.current.length > 0) processFrameBuffer()`. -/
def bufferProcessTick (st : CaptureState) : CaptureState :=
  if 0 < st.frameBuffer.length then processFrameBuffer st else st

/-- The observable events that drive one capture session. -/
inductive CaptureEvent where
  | tick (frame : String)
  | bufferTimer
  deriving DecidableEq

/-- Dispatch one event to the corresponding callback. -/
def stepCapture (st : CaptureState) : CaptureEvent → CaptureState
  | .tick f => tick st f
  | .bufferTimer => bufferProcessTick st

/-- Run a whole session from `startPeriodicCapture` over a list of events. -/
def runCapture (events : List CaptureEvent) : CaptureState :=
  events.foldl stepCapture initState

/-! Basic projection lemmas about the capture state machine. -/

theorem processFrameBuffer_captureRate (st : CaptureState) :
    (processFrameBuffer st).captureRate = st.captureRate := by
  unfold processFrameBuffer; split <;> rfl

theorem processFrameBuffer_lastFrameHash (st : CaptureState) :
    (processFrameBuffer st).lastFrameHash = st.lastFrameHash := by
  unfold processFrameBuffer; split <;> rfl

theorem processFrameBuffer_keptLog (st : CaptureState) :
    (processFrameBuffer st).keptLog = st.keptLog := by
  unfold processFrameBuffer; split <;> rfl

theorem processFrameBuffer_notifications (st : CaptureState) :
    (processFrameBuffer st).notifications = st.notifications := by
  unfold processFrameBuffer; split <;> rfl

theorem processFrameBuffer_intervalDelay (st : CaptureState) :
    (processFrameBuffer st).intervalDelay = st.intervalDelay := by
  unfold processFrameBuffer; split <;> rfl

theorem maybeFlushAtThreshold_captureRate (st : CaptureState) :
    (maybeFlushAtThreshold st).captureRate = st.captureRate := by
  unfold maybeFlushAtThreshold
  split
  · exact processFrameBuffer_captureRate st
  · rfl

theorem maybeFlushAtThreshold_lastFrameHash (st : CaptureState) :
    (maybeFlushAtThreshold st).lastFrameHash = st.lastFrameHash := by
  unfold maybeFlushAtThreshold
  split
  · exact processFrameBuffer_lastFrameHash st
  · rfl

theorem maybeFlushAtThreshold_keptLog (st : CaptureState) :
    (maybeFlushAtThreshold st).keptLog = st.keptLog := by
  unfold maybeFlushAtThreshold
  split
  · exact processFrameBuffer_keptLog st
  · rfl

theorem maybeFlushAtThreshold_notifications (st : CaptureState) :
    (maybeFlushAtThreshold st).notifications = st.notifications := by
  unfold maybeFlushAtThreshold
  split
  · exact processFrameBuffer_notifications st
  · rfl

theorem maybeFlushAtThreshold_intervalDelay (st : CaptureState) :
    (maybeFlushAtThreshold st).intervalDelay = st.intervalDelay := by
  unfold maybeFlushAtThreshold
  split
  · exact processFrameBuffer_intervalDelay st
  · rfl

theorem tick_captureRate (st : CaptureState) (f : String) :
    (tick st f).captureRate
      = if keepsFrame st f then
          (if isDifferentB st f then max 500 (st.captureRate - 100)
           else min 2000 (st.captureRate + 100))
        else st.captureRate := by
  unfold tick
  split
  · rw [maybeFlushAtThreshold_captureRate]
    rename_i h
    simp [h, tickKeep]
  · rename_i h
    simp [h]

theorem tick_keptLog (st : CaptureState) (f : String) :
    (tick st f).keptLog = st.keptLog ++ [keepsFrame st f] := by
  unfold tick
  split
  · rw [maybeFlushAtThreshold_keptLog]
    rename_i h
    simp [h, tickKeep]
  · rename_i h
    simp [h]

theorem tick_lastFrameHash (st : CaptureState) (f : String) :
    (tick st f).lastFrameHash
      = if keepsFrame st f then some (simpleHash f) else st.lastFrameHash := by
  unfold tick
  split
  · rw [maybeFlushAtThreshold_lastFrameHash]
    rename_i h
    simp [h, tickKeep]
  · rename_i h
    simp [h]

theorem stepCapture_intervalDelay (st : CaptureState) (e : CaptureEvent) :
    (stepCapture st e).intervalDelay = st.intervalDelay := by
  cases e with
  | tick f =>
      show (tick st f).intervalDelay = st.intervalDelay
      unfold tick
      split
      · rw [maybeFlushAtThreshold_intervalDelay]
        rfl
      · rfl
  | bufferTimer =>
      show (bufferProcessTick st).intervalDelay = st.intervalDelay
      unfold bufferProcessTick
      split
      · exact processFrameBuffer_intervalDelay st
      · rfl

theorem foldl_intervalDelay (events : List CaptureEvent) :
    ∀ st : CaptureState, (events.foldl stepCapture st).intervalDelay = st.intervalDelay := by
  induction events with
  | nil => intro st; rfl
  | cons e es ih =>
      intro st
      rw [List.foldl_cons, ih, stepCapture_intervalDelay]

/-! Capture rate bounds. -/

theorem stepCapture_rate_bounds (st : CaptureState) (e : CaptureEvent)
    (h1 : 500 ≤ st.captureRate) (h2 : st.captureRate ≤ 2000) :
    500 ≤ (stepCapture st e).captureRate ∧ (stepCapture st e).captureRate ≤ 2000 := by
  cases e with
  | tick f =>
      show 500 ≤ (tick st f).captureRate ∧ (tick st f).captureRate ≤ 2000
      rw [tick_captureRate]
      split_ifs <;> omega
  | bufferTimer =>
      show 500 ≤ (bufferProcessTick st).captureRate ∧ (bufferProcessTick st).captureRate ≤ 2000
      have : (bufferProcessTick st).captureRate = st.captureRate := by
        unfold bufferProcessTick
        split
        · exact processFrameBuffer_captureRate st
        · rfl
      rw [this]
      exact ⟨h1, h2⟩

theorem foldl_rate_bounds (events : List CaptureEvent) :
    ∀ st : CaptureState, 500 ≤ st.captureRate → st.captureRate ≤ 2000 →
      500 ≤ (events.foldl stepCapture st).captureRate
      ∧ (events.foldl stepCapture st).captureRate ≤ 2000 := by
  induction events with
  | nil => intro st h1 h2; exact ⟨h1, h2⟩
  | cons e es ih =>
      intro st h1 h2
      obtain ⟨g1, g2⟩ := stepCapture_rate_bounds st e h1 h2
      rw [List.foldl_cons]
      exact ih _ g1 g2

/-! The rate after a run of consecutively-different frames. -/

/-- Iterate the different-frame rate update `r := max 500 (r - 100)`. -/
def decIter : Nat → Nat → Nat
  | 0, r => r
  | n + 1, r => decIter n (max 500 (r - 100))

theorem decIter_eq (n : Nat) : ∀ r : Nat, 500 ≤ r → decIter n r = max 500 (r - 100 * n) := by
  induction n with
  | zero => intro r hr; unfold decIter; omega
  | succ n ih =>
      intro r hr
      show decIter n (max 500 (r - 100)) = max 500 (r - 100 * (n + 1))
      rw [ih (max 500 (r - 100)) (le_max_left _ _)]
      omega

/-- Frames that are pairwise consecutively different under `simpleHash`. -/
def consecDifferent : List String → Bool
  | [] => true
  | [_] => true
  | a :: b :: rest => decide (simpleHash a ≠ simpleHash b) && consecDifferent (b :: rest)

theorem consecDifferent_cons {a : String} {rest : List String}
    (h : consecDifferent (a :: rest) = true) :
    consecDifferent rest = true
    ∧ ∀ g, rest.head? = some g → simpleHash a ≠ simpleHash g := by
  cases rest with
  | nil => exact ⟨rfl, by intro g hg; cases hg⟩
  | cons b bs =>
      simp only [consecDifferent, Bool.and_eq_true, decide_eq_true_eq] at h
      refine ⟨h.2, ?_⟩
      · intro g hg
        injection hg with hg
        subst hg
        exact h.1

theorem run_diff_rate (fs : List String) :
    ∀ st : CaptureState,
      consecDifferent fs = true →
      (∀ f0, fs.head? = some f0 → st.lastFrameHash ≠ some (simpleHash f0)) →
      ((fs.map CaptureEvent.tick).foldl stepCapture st).captureRate
        = decIter fs.length st.captureRate := by
  induction fs with
  | nil => intro st _ _; rfl
  | cons f rest ih =>
      intro st hchain hhead
      have hdiff : isDifferentB st f = true := by
        simp only [isDifferentB, decide_eq_true_eq]
        exact hhead f rfl
      have hkeep : keepsFrame st f = true := by
        simp [keepsFrame, hdiff]
      obtain ⟨htail, hstep⟩ := consecDifferent_cons hchain
      rw [List.map_cons, List.foldl_cons]
      have hst : stepCapture st (CaptureEvent.tick f) = maybeFlushAtThreshold (tickKeep st f) := by
        show tick st f = _
        unfold tick
        rw [if_pos hkeep]
      rw [hst]
      have h1 : (maybeFlushAtThreshold (tickKeep st f)).captureRate
          = max 500 (st.captureRate - 100) := by
        rw [maybeFlushAtThreshold_captureRate]
        simp [tickKeep, hdiff]
      have h2 : (maybeFlushAtThreshold (tickKeep st f)).lastFrameHash = some (simpleHash f) := by
        rw [maybeFlushAtThreshold_lastFrameHash]
        simp [tickKeep]
      rw [ih _ htail]
      · rw [h1]
        rfl
      · intro g hg
        rw [h2]
        intro hcontra
        exact hstep g hg (Option.some.inj hcontra)

/-! A run of frames whose fingerprint equals the stored one, over a non-empty
buffer, keeps nothing and changes nothing but the kept log. -/

theorem run_unchanged (h : Int) (fs : List String) :
    ∀ st : CaptureState,
      st.lastFrameHash = some h → st.frameBuffer ≠ [] → (∀ x ∈ fs, simpleHash x = h) →
      ((fs.map CaptureEvent.tick).foldl stepCapture st).keptLog
          = st.keptLog ++ fs.map (fun _ => false)
      ∧ ((fs.map CaptureEvent.tick).foldl stepCapture st).lastFrameHash = st.lastFrameHash
      ∧ ((fs.map CaptureEvent.tick).foldl stepCapture st).frameBuffer = st.frameBuffer := by
  induction fs with
  | nil => intro st _ _ _; simp
  | cons x xs ih =>
      intro st hlast hbuf hall
      have hx : simpleHash x = h := hall x (by simp)
      have hkeep : keepsFrame st x = false := by
        simp [keepsFrame, isDifferentB, hlast, hx, hbuf]
      have hst : stepCapture st (CaptureEvent.tick x)
          = { st with keptLog := st.keptLog ++ [false] } := by
        show tick st x = _
        unfold tick
        rw [if_neg (by rw [hkeep]; exact Bool.false_ne_true)]
      rw [List.map_cons, List.foldl_cons, hst]
      obtain ⟨g1, g2, g3⟩ := ih { st with keptLog := st.keptLog ++ [false] }
        hlast hbuf (fun y hy => hall y (by simp [hy]))
      refine ⟨?_, g2, g3⟩
      rw [g1]
      simp

/-! Claim theorems about the Frame Differ, the Adaptive Clock and the
frame-count notifications. -/

/-- C1 (amended): a frame is kept if and only if its fingerprint differs from
the stored previous fingerprint or the frame buffer is empty at evaluation
time (the first frame of a session falls under both disjuncts); the stored
fingerprint is updated exactly when a frame is kept; and for a session whose
frames all share one fingerprint (so that no flush empties the buffer
mid-sequence), exactly the first frame is kept and all the rest are
discarded. -/
theorem frame_differ_keeps (events : List CaptureEvent) (frame f : String) (fs : List String)
    (hsame : ∀ x ∈ fs, simpleHash x = simpleHash f) :
    (keepsFrame (runCapture events) frame = true
      ↔ ((runCapture events).lastFrameHash ≠ some (simpleHash frame)
          ∨ (runCapture events).frameBuffer = []))
    ∧ (tick (runCapture events) frame).keptLog
        = (runCapture events).keptLog ++ [keepsFrame (runCapture events) frame]
    ∧ (tick (runCapture events) frame).lastFrameHash
        = (if keepsFrame (runCapture events) frame then some (simpleHash frame)
           else (runCapture events).lastFrameHash)
    ∧ (runCapture ((f :: fs).map CaptureEvent.tick)).keptLog
        = true :: fs.map (fun _ => false) := by
  refine ⟨?_, tick_keptLog _ _, tick_lastFrameHash _ _, ?_⟩
  · simp [keepsFrame, isDifferentB]
  · have hkeep : keepsFrame initState f = true := by
      simp [keepsFrame, isDifferentB, initState]
    have hlen : ¬ 5 ≤ (tickKeep initState f).frameBuffer.length := by
      simp [tickKeep, initState]
    have hst1 : tick initState f = tickKeep initState f := by
      unfold tick
      rw [if_pos hkeep]
      unfold maybeFlushAtThreshold
      rw [if_neg hlen]
    show (((f :: fs).map CaptureEvent.tick).foldl stepCapture initState).keptLog = _
    rw [List.map_cons, List.foldl_cons]
    have hse : stepCapture initState (CaptureEvent.tick f) = tickKeep initState f := hst1
    rw [hse]
    obtain ⟨g1, -, -⟩ := run_unchanged (simpleHash f) fs (tickKeep initState f)
      (by simp [tickKeep]) (by simp [tickKeep, initState]) hsame
    rw [g1]
    simp [tickKeep, initState]

/-- Witness for `frame_differ_keeps`: three identical frames from session
start keep exactly the first. -/
theorem frame_differ_keeps_witness :
    (runCapture (["a", "a", "a"].map CaptureEvent.tick)).keptLog = [true, false, false] :=
  (frame_differ_keeps [] "a" "a" ["a", "a"] (by decide)).2.2.2

/-- C1 counterexample: five pairwise-different frames fill the buffer to the
threshold of 5, which flushes it; the sixth frame has the same fingerprint as
the stored one and is not the first frame of the session, yet it is kept
(because the buffer is empty after the flush), contradicting the claimed
"kept iff first frame or fingerprint differs". -/
theorem frame_differ_counterexample :
    (runCapture (["a", "b", "c", "d", "e"].map CaptureEvent.tick)).keptLog
        = [true, true, true, true, true]
    ∧ isDifferentB (runCapture (["a", "b", "c", "d", "e"].map CaptureEvent.tick)) "e" = false
    ∧ (runCapture ((["a", "b", "c", "d", "e"].map CaptureEvent.tick)
          ++ [CaptureEvent.tick "e"])).keptLog
        = [true, true, true, true, true, true] := by decide

/-- C6 (amended): the delay state starts at 1000ms and stays within
[500, 2000]; after N consecutive evaluations judged different (which are all
kept) it equals `max 500 (1000 - 100 * N)`; but an evaluation judged unchanged
while the buffer is non-empty skips the kept branch entirely and leaves the
delay untouched — only kept frames adjust the delay. -/
theorem adaptive_rate_props (fs : List String) (events : List CaptureEvent) (f : String)
    (hfs : consecDifferent fs = true)
    (hsk1 : isDifferentB (runCapture events) f = false)
    (hsk2 : (runCapture events).frameBuffer ≠ []) :
    (runCapture (fs.map CaptureEvent.tick)).captureRate = max 500 (1000 - 100 * fs.length)
    ∧ 500 ≤ (runCapture events).captureRate
    ∧ (runCapture events).captureRate ≤ 2000
    ∧ (tick (runCapture events) f).captureRate = (runCapture events).captureRate := by
  refine ⟨?_, (foldl_rate_bounds events initState (by decide) (by decide)).1,
    (foldl_rate_bounds events initState (by decide) (by decide)).2, ?_⟩
  · have h := run_diff_rate fs initState hfs (by intro f0 _; simp [initState])
    show ((fs.map CaptureEvent.tick).foldl stepCapture initState).captureRate = _
    rw [h]
    exact decIter_eq fs.length 1000 (by omega)
  · rw [tick_captureRate]
    have hk : keepsFrame (runCapture events) f = false := by
      simp [keepsFrame, hsk1, hsk2]
    rw [if_neg (by rw [hk]; exact Bool.false_ne_true)]

/-- Witness for `adaptive_rate_props` at two different frames, and at an
unchanged evaluation over the non-empty buffer left by one kept frame. -/
theorem adaptive_rate_props_witness :
    (runCapture (["a", "b"].map CaptureEvent.tick)).captureRate = max 500 (1000 - 100 * 2)
    ∧ 500 ≤ (runCapture [CaptureEvent.tick "a"]).captureRate
    ∧ (runCapture [CaptureEvent.tick "a"]).captureRate ≤ 2000
    ∧ (tick (runCapture [CaptureEvent.tick "a"]) "a").captureRate
        = (runCapture [CaptureEvent.tick "a"]).captureRate :=
  adaptive_rate_props ["a", "b"] [CaptureEvent.tick "a"] "a" (by decide) (by decide) (by decide)

/-- C6 counterexample: after one kept frame, a timer flush, and one kept
unchanged frame the delay state is back at 1000ms; a further evaluation of
the same unchanged frame (buffer now non-empty) leaves the delay at 1000ms,
whereas the claim ("every evaluation adjusts the delay"; N = 1 consecutive
unchanged evaluation from 1000ms gives `min 2000 (1000 + 100) = 1100`)
demands 1100ms. -/
theorem adaptive_rate_counterexample :
    (runCapture [CaptureEvent.tick "a", CaptureEvent.bufferTimer, CaptureEvent.tick "a"]).captureRate
        = 1000
    ∧ (runCapture ([CaptureEvent.tick "a", CaptureEvent.bufferTimer, CaptureEvent.tick "a"]
          ++ [CaptureEvent.tick "a"])).captureRate = 1000
    ∧ (runCapture ([CaptureEvent.tick "a", CaptureEvent.bufferTimer, CaptureEvent.tick "a"]
          ++ [CaptureEvent.tick "a"])).keptLog = [true, true, false] := by decide

/-- C7 (code evaluation): the capture loop never re-reads the adaptive delay.
`setInterval` is created exactly once in `startPeriodicCapture` with the
then-current `captureRate` of 1000ms, so the delay used to schedule every
tick stays 1000ms for the whole session, even though after one different
frame the adaptive delay state is already 900ms. -/
theorem capture_delay_never_rescheduled :
    (∀ events : List CaptureEvent, (runCapture events).intervalDelay = 1000)
    ∧ (runCapture [CaptureEvent.tick "a"]).captureRate = 900 := by
  constructor
  · intro events
    exact foldl_intervalDelay events initState
  · decide

/-- C9 (code evaluation): `captureCount` inside the interval callback is read
from the closure created in `startPeriodicCapture` (value 0), not from the
current React state, so both kept frames of this session notify
`onFrameCapture` with the value 1 — the N-th kept frame does not notify N. -/
theorem frame_count_notification_stale :
    (runCapture [CaptureEvent.tick "a", CaptureEvent.tick "b"]).keptLog = [true, true]
    ∧ (runCapture [CaptureEvent.tick "a", CaptureEvent.tick "b"]).notifications = [1, 1] := by
  decide

/-!
Model of the batch analysis route (`src/app/api/analyze/batch/route.ts`).

The request body is a parsed JSON value.  The route destructures `images`
out of it, validates it, and then processes the images in sequential rounds
of at most `concurrencyLimit = 3` frames: each round dispatches its frames
concurrently and `Promise.all` collects the results by slot index, so the
completion order inside a round never affects the output order.  The
completion order of a round is modelled explicitly as the list of slot
indices in the order the per-frame promises settle; `Promise.all` is the
slot-indexed assembly `fillSlots`/`analyzeChunkOrd`.  The per-frame describer
call is an oracle `f : Nat → String → DescribeOutcome` from the frame index
and its base64 payload.
-/

/-- Parsed JSON values (numbers as integers; no float behaviour is relied
on by the route). -/
inductive Json where
  | null
  | bool (b : Bool)
  | num (n : Int)
  | str (s : String)
  | arr (elems : List Json)
  | obj (fields : List (String × Json))

/-- JavaScript truthiness of a JSON value. -/
def jsTruthy : Json → Bool
  | .null => false
  | .bool b => b
  | .num n => decide (n ≠ 0)
  | .str s => decide (s ≠ "")
  | .arr _ => true
  | .obj _ => true

/-- Property access (`body.images` via destructuring); `none` models
JavaScript `undefined`, which is what destructuring a non-object (other than
`null`, handled separately) or an object without the field yields. -/
def getField : Json → String → Option Json
  | .obj fields, k => (fields.find? (fun p => p.1 == k)).map (fun p => p.2)
  | _, _ => none

/-- `imageData.startsWith(p)` over the characters (frames are ASCII data
URLs, so UTF-16 units and code points coincide). -/
def jsStartsWith (s p : String) : Bool := p.data.isPrefixOf s.data

/-- JavaScript `String.prototype.split` with a one-character separator. -/
def splitChars (sep : Char) : List Char → List (List Char)
  | [] => [[]]
  | c :: cs =>
      if c = sep then [] :: splitChars sep cs
      else
        match splitChars sep cs with
        | [] => [[c]]
        | g :: gs => (c :: g) :: gs

/-- `imageData.split(',')[1]`, with `""` also standing for an absent element:
the route only tests the result for truthiness and both `undefined` and `''`
are falsy. -/
def base64Part (s : String) : String :=
  String.mk ((splitChars ',' s.data).getD 1 [])

/-- Outcome of one `openai.chat.completions.create` call: success with the
(possibly null) message content, or a thrown error carrying its message
(`none` for a throwable that is not an `Error` instance). -/
inductive DescribeOutcome where
  | ok (content : Option String)
  | fail (msg : Option String)

/-- JavaScript `x || d` for a string value that may be null or absent. -/
def orDefault (s : Option String) (d : String) : String :=
  match s with
  | some t => if t = "" then d else t
  | none => d

/-- The record produced by the pre-check `!imageData || !imageData.startsWith('data:image/')`. -/
def invalidFormatMsg (idx : Nat) : String := "Image " ++ toString idx ++ " has invalid format"

/-- The record produced when `imageData.split(',')[1]` is falsy. -/
def noBase64Msg (idx : Nat) : String :=
  "Failed to extract base64 data from image " ++ toString idx

/-- The record produced by the per-frame catch block. -/
def describeErrorMsg (idx : Nat) (m : Option String) : String :=
  "Error analyzing image " ++ toString idx ++ ": " ++ m.getD "Unknown error"

/-- One per-frame task of the batch route: pre-checks, then the describer
call, every failure caught locally and turned into an error record.  A
truthy non-string `imageData` throws `TypeError` at `.startsWith`, which the
per-frame catch also turns into an error record. -/
def analyzeOne (f : Nat → String → DescribeOutcome) (idx : Nat) : Json → String
  | .str s =>
      if s = "" then invalidFormatMsg idx
      else if jsStartsWith s "data:image/" = false then invalidFormatMsg idx
      else if base64Part s = "" then noBase64Msg idx
      else
        match f idx (base64Part s) with
        | .ok c => orDefault c "No analysis available"
        | .fail m => describeErrorMsg idx m
  | j =>
      if jsTruthy j then describeErrorMsg idx (some "imageData.startsWith is not a function")
      else invalidFormatMsg idx

/-- True when the frame survives the cheap pre-checks, i.e. exactly when the
describer is actually called for it. -/
def passesPrecheck : Json → Bool
  | .str s => decide (s ≠ "") && jsStartsWith s "data:image/" && decide (base64Part s ≠ "")
  | _ => false

/-- Reference order: the per-frame results in input order, frame `i + k` of
the batch in slot `k`. -/
def analyzeFrom (f : Nat → String → DescribeOutcome) : Nat → List Json → List String
  | _, [] => []
  | i, img :: rest => analyzeOne f i img :: analyzeFrom f (i + 1) rest

/-- The slot array written by the settling promises: processing the
completion order left to right, the promise for slot `j` stores result
`r j` into slot `j`. -/
def fillSlots (r : Nat → String) : List Nat → Nat → Option String
  | [], _ => none
  | j :: rest, k => if k = j then some (r j) else fillSlots r rest k

/-- `Promise.all` over one round: the settled slots read back in slot order,
whatever order the promises completed in. -/
def analyzeChunkOrd (f : Nat → String → DescribeOutcome) (start : Nat) (batch : List Json)
    (order : List Nat) : List String :=
  (List.range batch.length).map fun k =>
    (fillSlots (fun j => analyzeOne f (start + j) (batch.getD j .null)) order k).getD ""

/-- A completion order in which every slot of the round settles. -/
def covers (order : List Nat) (n : Nat) : Bool :=
  (List.range n).all fun j => decide (j ∈ order)

/-- The route's dispatch loop `for (let i = 0; i < images.length; i += 3)`:
each round of at most 3 frames runs under `Promise.all` with its own
completion order, and rounds are strictly sequential (`await` between
rounds). -/
def runBatches (f : Nat → String → DescribeOutcome) :
    Nat → List (List Nat) → List Json → List String
  | _, _, [] => []
  | i, orders, [a] => analyzeChunkOrd f i [a] (orders.headD (List.range 1))
  | i, orders, [a, b] => analyzeChunkOrd f i [a, b] (orders.headD (List.range 2))
  | i, orders, a :: b :: c :: rest =>
      analyzeChunkOrd f i [a, b, c] (orders.headD (List.range 3))
        ++ runBatches f (i + 3) orders.tail rest

/-- Every provided completion order settles all slots of its round. -/
def ordersOK : List (List Nat) → List Json → Bool
  | _, [] => true
  | orders, [_] => covers (orders.headD (List.range 1)) 1
  | orders, [_, _] => covers (orders.headD (List.range 2)) 2
  | orders, _ :: _ :: _ :: rest =>
      covers (orders.headD (List.range 3)) 3 && ordersOK orders.tail rest

/-- The rounds of the dispatch loop: `images.slice(i, i + 3)` for
`i = 0, 3, 6, ...`. -/
def chunked : List Json → List (List Json)
  | [] => []
  | [a] => [[a]]
  | [a, b] => [[a, b]]
  | a :: b :: c :: rest => [a, b, c] :: chunked rest

/-- Sequential execution of the rounds, at most one round in flight. -/
def runChunks (f : Nat → String → DescribeOutcome) :
    Nat → List (List Nat) → List (List Json) → List String
  | _, _, [] => []
  | i, orders, c :: cs =>
      analyzeChunkOrd f i c (orders.headD (List.range c.length))
        ++ runChunks f (i + 3) orders.tail cs

/-- The observable response of the route, together with the number of
describer calls it made. -/
structure BatchResponse where
  status : Nat
  analyses : Option (List String)
  error : Option String
  describerCalls : Nat

/-- The 400 error body of the route. -/
def imagesRequiredMsg : String := "Images array is required"

/-- The response of the `!images || !Array.isArray(images) || images.length === 0` guard. -/
def bad400 : BatchResponse :=
  { status := 400, analyses := none, error := some imagesRequiredMsg, describerCalls := 0 }

/-- Validation and processing of the destructured `images` value. -/
def handleImages (f : Nat → String → DescribeOutcome) (orders : List (List Nat)) :
    Option Json → BatchResponse
  | none => bad400
  | some j =>
      if jsTruthy j = false then bad400
      else
        match j with
        | .arr [] => bad400
        | .arr imgs =>
            { status := 200, analyses := some (runBatches f 0 orders imgs), error := none
              describerCalls := (imgs.filter passesPrecheck).length }
        | _ => bad400

/-- The POST handler of the batch route.  A JSON `null` body makes
`const { images } = await req.json()` throw a `TypeError`, which the outer
catch turns into a 500 response (the exact `TypeError` text is
engine-specific and abbreviated here); any other body destructures, and the
`images` value is validated and processed. -/
def POSTbatch (f : Nat → String → DescribeOutcome) (body : Json)
    (orders : List (List Nat)) : BatchResponse :=
  match body with
  | .null =>
      { status := 500, analyses := none
        error := some "Failed to analyze images: cannot destructure null body"
        describerCalls := 0 }
  | body => handleImages f orders (getField body "images")

/-!
Model of the summarization step of `stopCapture`
(`use-screen-capture.ts`, lines 234-267, and
`src/app/api/analyze/summarize/route.ts`).
-/

/-- Outcome of the summarize fetch: the `summary` field of a 200 response
(possibly absent), or any failure (non-ok status, network error, invalid
JSON, summarizer throw). -/
inductive SummarizeOutcome where
  | ok (summary : Option String)
  | fail

/-- The message delivered when the session ends with no analyses. -/
def noFramesMessage : String :=
  "No frames were captured for analysis. Please try again and ensure your screen is shared for at least a few seconds."

/-- What `stopCapture` delivers to `onAnalysisComplete`, and whether it
called the summarize endpoint. -/
structure StopResult where
  message : String
  summarizerCalled : Bool

/-- The summarization step of `stopCapture`: with at least one analysis it
always invokes the summarize endpoint (there is no single-record shortcut),
delivering `data.summary || 'No summary available'` on success and the fixed
failure note — which contains only the frame count, not the per-frame
texts — on failure; with no analyses it delivers the fixed no-frames message
without calling the summarizer. -/
def stopCapture (analyses : List String) (out : SummarizeOutcome) : StopResult :=
  if 0 < analyses.length then
    match out with
    | .ok s => { message := orDefault s "No summary available", summarizerCalled := true }
    | .fail =>
        { message := "Failed to summarize analyses. Captured "
            ++ toString analyses.length ++ " frames."
          summarizerCalled := true }
  else { message := noFramesMessage, summarizerCalled := false }

/-! Lemmas about the batch pipeline. -/

theorem fillSlots_eq (r : Nat → String) (order : List Nat) (k : Nat) :
    fillSlots r order k = if k ∈ order then some (r k) else none := by
  induction order with
  | nil => simp [fillSlots]
  | cons j rest ih =>
      unfold fillSlots
      by_cases h : k = j
      · subst h
        simp
      · simp [h, ih]

theorem analyzeFrom_length (f : Nat → String → DescribeOutcome) :
    ∀ (i : Nat) (l : List Json), (analyzeFrom f i l).length = l.length
  | _, [] => rfl
  | i, img :: rest => by
      simp [analyzeFrom, analyzeFrom_length f (i + 1) rest]

theorem analyzeFrom_getElem (f : Nat → String → DescribeOutcome) :
    ∀ (i k : Nat) (l : List Json) (h : k < (analyzeFrom f i l).length),
      (analyzeFrom f i l)[k] = analyzeOne f (i + k) (l.getD k Json.null)
  | i, 0, img :: rest, h => by simp [analyzeFrom]
  | i, k + 1, img :: rest, h => by
      simp only [analyzeFrom, List.getElem_cons_succ, List.getD_cons_succ]
      rw [analyzeFrom_getElem f (i + 1) k rest]
      congr 1
      omega

theorem analyzeFrom_getD (f : Nat → String → DescribeOutcome)
    (i k : Nat) (l : List Json) (h : k < l.length) :
    (analyzeFrom f i l).getD k "" = analyzeOne f (i + k) (l.getD k Json.null) := by
  have hlen : k < (analyzeFrom f i l).length := by rw [analyzeFrom_length]; exact h
  rw [List.getD_eq_getElem _ _ hlen]
  exact analyzeFrom_getElem f i k l hlen

theorem covers_mem {order : List Nat} {n k : Nat} (h : covers order n = true) (hk : k < n) :
    k ∈ order := by
  simp only [covers, List.all_eq_true, decide_eq_true_eq] at h
  exact h k (List.mem_range.mpr hk)

theorem analyzeChunkOrd_eq (f : Nat → String → DescribeOutcome) (start : Nat)
    (batch : List Json) (order : List Nat) (h : covers order batch.length = true) :
    analyzeChunkOrd f start batch order = analyzeFrom f start batch := by
  apply List.ext_getElem
  · simp [analyzeChunkOrd, analyzeFrom_length]
  · intro k h1 h2
    have hk : k < batch.length := by
      simpa [analyzeChunkOrd] using h1
    simp only [analyzeChunkOrd, List.getElem_map, List.getElem_range]
    rw [fillSlots_eq, if_pos (covers_mem h hk), Option.getD_some]
    rw [analyzeFrom_getElem f start k batch h2]

theorem analyzeFrom_append (f : Nat → String → DescribeOutcome) :
    ∀ (i : Nat) (l1 l2 : List Json),
      analyzeFrom f i (l1 ++ l2) = analyzeFrom f i l1 ++ analyzeFrom f (i + l1.length) l2
  | i, [], l2 => by simp [analyzeFrom]
  | i, a :: l1, l2 => by
      have ih := analyzeFrom_append f (i + 1) l1 l2
      have hn : i + 1 + l1.length = i + (a :: l1).length := by
        simp only [List.length_cons]
        omega
      calc analyzeFrom f i ((a :: l1) ++ l2)
          = analyzeOne f i a :: analyzeFrom f (i + 1) (l1 ++ l2) := rfl
        _ = analyzeOne f i a
              :: (analyzeFrom f (i + 1) l1 ++ analyzeFrom f (i + 1 + l1.length) l2) := by rw [ih]
        _ = analyzeFrom f i (a :: l1) ++ analyzeFrom f (i + 1 + l1.length) l2 := rfl
        _ = analyzeFrom f i (a :: l1) ++ analyzeFrom f (i + (a :: l1).length) l2 := by rw [hn]

theorem runBatches_eq (f : Nat → String → DescribeOutcome) :
    ∀ (i : Nat) (orders : List (List Nat)) (imgs : List Json),
      ordersOK orders imgs = true → runBatches f i orders imgs = analyzeFrom f i imgs
  | i, orders, [], _ => rfl
  | i, orders, [a], h => by
      simp only [runBatches]
      exact analyzeChunkOrd_eq f i [a] _ h
  | i, orders, [a, b], h => by
      simp only [runBatches]
      exact analyzeChunkOrd_eq f i [a, b] _ h
  | i, orders, a :: b :: c :: rest, h => by
      simp only [ordersOK, Bool.and_eq_true] at h
      simp only [runBatches]
      rw [analyzeChunkOrd_eq f i [a, b, c] _ h.1]
      rw [runBatches_eq f (i + 3) orders.tail rest h.2]
      rw [show (a :: b :: c :: rest : List Json) = [a, b, c] ++ rest from rfl,
        analyzeFrom_append]
      rfl

theorem chunked_spec :
    ∀ imgs : List Json, (∀ c ∈ chunked imgs, c.length ≤ 3) ∧ (chunked imgs).flatten = imgs
  | [] => by simp [chunked]
  | [a] => by simp [chunked]
  | [a, b] => by simp [chunked]
  | a :: b :: c :: rest => by
      obtain ⟨h1, h2⟩ := chunked_spec rest
      refine ⟨?_, ?_⟩
      · intro d hd
        simp only [chunked, List.mem_cons] at hd
        rcases hd with h | h
        · subst h
          simp
        · exact h1 d h
      · simp [chunked, h2]

theorem runBatches_runChunks (f : Nat → String → DescribeOutcome) :
    ∀ (i : Nat) (orders : List (List Nat)) (imgs : List Json),
      runBatches f i orders imgs = runChunks f i orders (chunked imgs)
  | i, orders, [] => rfl
  | i, orders, [a] => by simp [runBatches, chunked, runChunks]
  | i, orders, [a, b] => by simp [runBatches, chunked, runChunks]
  | i, orders, a :: b :: c :: rest => by
      simp only [runBatches, chunked, runChunks]
      rw [runBatches_runChunks f (i + 3) orders.tail rest]
      rfl

theorem POSTbatch_valid (f : Nat → String → DescribeOutcome) (orders : List (List Nat))
    (a : Json) (rest : List Json) :
    POSTbatch f (Json.obj [("images", Json.arr (a :: rest))]) orders
      = { status := 200, analyses := some (runBatches f 0 orders (a :: rest)), error := none
          describerCalls := ((a :: rest).filter passesPrecheck).length } := rfl

theorem analyzeOne_congr {f g : Nat → String → DescribeOutcome} (idx : Nat) (img : Json)
    (h : f idx = g idx) :
    analyzeOne f idx img = analyzeOne g idx img := by
  cases img <;> simp [analyzeOne, h]

theorem POSTbatch_nonnull (f : Nat → String → DescribeOutcome) (orders : List (List Nat))
    (body : Json) (hbody : body ≠ Json.null) :
    POSTbatch f body orders = handleImages f orders (getField body "images") := by
  cases body with
  | null => exact absurd rfl hbody
  | bool b => rfl
  | num n => rfl
  | str s => rfl
  | arr xs => rfl
  | obj fields => rfl

theorem handleImages_not_array (f : Nat → String → DescribeOutcome) (orders : List (List Nat))
    (j : Json) (hj : ∀ xs, j ≠ Json.arr xs) :
    handleImages f orders (some j) = bad400 := by
  cases j with
  | arr xs => exact absurd rfl (hj xs)
  | null => rfl
  | bool b => cases b <;> rfl
  | num n =>
      show (if jsTruthy (Json.num n) = false then bad400 else _) = bad400
      by_cases hn : jsTruthy (Json.num n) = false
      · rw [if_pos hn]
      · rw [if_neg hn]
  | str s =>
      show (if jsTruthy (Json.str s) = false then bad400 else _) = bad400
      by_cases hn : jsTruthy (Json.str s) = false
      · rw [if_pos hn]
      · rw [if_neg hn]
  | obj fields => rfl

/-- A describer that always succeeds, used in witnesses. -/
def constOk : Nat → String → DescribeOutcome := fun _ _ => .ok (some "fine")

/-- A describer that throws for frame 0 only, used in witnesses. -/
def failAtZero : Nat → String → DescribeOutcome := fun k _ =>
  if k = 0 then .fail (some "boom") else .ok (some "fine")

/-! Claim theorems about the batch route and the summarization step. -/

/-- C2: for every non-empty image list, every assignment of per-frame
describer outcomes `f`, and every family of per-round completion orders in
which all dispatched promises settle, the route responds with an analysis
list equal to the input-order reference `analyzeFrom f 0`; that list has
exactly the length of the input, and its entry at position `k` is the result
for the frame at input position `k`. -/
theorem batch_order_preserved (f : Nat → String → DescribeOutcome) (a : Json) (rest : List Json)
    (orders : List (List Nat)) (hord : ordersOK orders (a :: rest) = true) :
    (POSTbatch f (Json.obj [("images", Json.arr (a :: rest))]) orders).analyses
        = some (analyzeFrom f 0 (a :: rest))
    ∧ (analyzeFrom f 0 (a :: rest)).length = (a :: rest).length
    ∧ ∀ k, k < (a :: rest).length →
        (analyzeFrom f 0 (a :: rest)).getD k ""
          = analyzeOne f k ((a :: rest).getD k Json.null) := by
  refine ⟨?_, analyzeFrom_length f 0 _, ?_⟩
  · rw [POSTbatch_valid, runBatches_eq f 0 orders _ hord]
  · intro k hk
    have h := analyzeFrom_getD f 0 k (a :: rest) hk
    simpa using h

/-- Witness for `batch_order_preserved`: a four-image batch (one of which is
invalid) under the scrambled completion orders [2, 0, 1] and [0]. -/
theorem batch_order_preserved_witness :
    ordersOK [[2, 0, 1], [0]]
        (Json.str "data:image/jpeg;base64,AAAA" :: [Json.str "data:image/jpeg;base64,BBBB",
          Json.str "x", Json.str "data:image/jpeg;base64,CCCC"]) = true
    ∧ (POSTbatch constOk (Json.obj [("images", Json.arr (Json.str "data:image/jpeg;base64,AAAA"
        :: [Json.str "data:image/jpeg;base64,BBBB", Json.str "x",
            Json.str "data:image/jpeg;base64,CCCC"]))]) [[2, 0, 1], [0]]).analyses
        = some (analyzeFrom constOk 0 (Json.str "data:image/jpeg;base64,AAAA"
            :: [Json.str "data:image/jpeg;base64,BBBB", Json.str "x",
                Json.str "data:image/jpeg;base64,CCCC"])) :=
  ⟨by decide, (batch_order_preserved constOk _ _ _ (by decide)).1⟩

/-- C3: the batch call succeeds (status 200) for every assignment of
per-frame outcomes; changing the outcome of frame `j` alone changes no other
slot; a describer failure at a frame that passed the pre-checks produces the
per-frame error record in that frame's slot; and a frame failing the cheap
pre-checks produces one of the two local error records without any describer
call being modelled for it. -/
theorem batch_fault_isolation (f g : Nat → String → DescribeOutcome)
    (a : Json) (rest : List Json) (orders : List (List Nat)) (j : Nat) (e : String)
    (hagree : ∀ k, k ≠ j → f k = g k) :
    (POSTbatch f (Json.obj [("images", Json.arr (a :: rest))]) orders).status = 200
    ∧ (analyzeFrom f 0 (a :: rest)).length = (analyzeFrom g 0 (a :: rest)).length
    ∧ (∀ k, k ≠ j →
        (analyzeFrom f 0 (a :: rest)).getD k "" = (analyzeFrom g 0 (a :: rest)).getD k "")
    ∧ (f j = (fun _ => DescribeOutcome.fail (some e)) → j < (a :: rest).length →
        passesPrecheck ((a :: rest).getD j Json.null) = true →
        (analyzeFrom f 0 (a :: rest)).getD j "" = describeErrorMsg j (some e))
    ∧ (∀ s : String, passesPrecheck (Json.str s) = false →
        analyzeOne f j (Json.str s) = invalidFormatMsg j
        ∨ analyzeOne f j (Json.str s) = noBase64Msg j) := by
  refine ⟨by rw [POSTbatch_valid], by rw [analyzeFrom_length, analyzeFrom_length], ?_, ?_, ?_⟩
  · intro k hk
    by_cases hlt : k < (a :: rest).length
    · rw [analyzeFrom_getD f 0 k _ hlt, analyzeFrom_getD g 0 k _ hlt]
      exact analyzeOne_congr (0 + k) _ (hagree (0 + k) (by simpa using hk))
    · push_neg at hlt
      rw [List.getD_eq_default, List.getD_eq_default]
      · rw [analyzeFrom_length]; exact hlt
      · rw [analyzeFrom_length]; exact hlt
  · intro hf hj hp
    rw [analyzeFrom_getD f 0 j _ hj]
    simp only [Nat.zero_add]
    rcases himg : (a :: rest).getD j Json.null with _ | b | n | s | xs | fl
    · rw [himg] at hp; simp [passesPrecheck] at hp
    · rw [himg] at hp; simp [passesPrecheck] at hp
    · rw [himg] at hp; simp [passesPrecheck] at hp
    · rw [himg] at hp
      simp only [passesPrecheck, Bool.and_eq_true, decide_eq_true_eq] at hp
      obtain ⟨⟨hs1, hs2⟩, hs3⟩ := hp
      simp only [analyzeOne, if_neg hs1, hs2]
      simp only [Bool.true_eq_false, if_false, if_neg hs3]
      rw [hf]
    · rw [himg] at hp; simp [passesPrecheck] at hp
    · rw [himg] at hp; simp [passesPrecheck] at hp
  · intro s hp
    by_cases h1 : s = ""
    · left; simp [analyzeOne, h1]
    · by_cases h2 : jsStartsWith s "data:image/" = true
      · by_cases h3 : base64Part s = ""
        · right
          simp [analyzeOne, h1, h2, h3]
        · exfalso
          simp [passesPrecheck, h1, h2, h3] at hp
      · left
        simp only [Bool.not_eq_true] at h2
        simp [analyzeOne, h1, h2]

/-- Witness for `batch_fault_isolation`: a two-frame batch in which frame 0's
describer throws; slot 0 carries the error record and slot 1 is exactly what
an always-succeeding describer produces. -/
theorem batch_fault_isolation_witness :
    (∀ k, k ≠ 0 → failAtZero k = constOk k)
    ∧ (analyzeFrom failAtZero 0 [Json.str "data:image/jpeg;base64,AAAA",
        Json.str "data:image/jpeg;base64,BBBB"]).getD 0 "" = describeErrorMsg 0 (some "boom")
    ∧ (∀ k, k ≠ 0 →
        (analyzeFrom failAtZero 0 [Json.str "data:image/jpeg;base64,AAAA",
          Json.str "data:image/jpeg;base64,BBBB"]).getD k ""
        = (analyzeFrom constOk 0 [Json.str "data:image/jpeg;base64,AAAA",
            Json.str "data:image/jpeg;base64,BBBB"]).getD k "") := by
  have hagree : ∀ k, k ≠ 0 → failAtZero k = constOk k := by
    intro k hk
    funext b
    simp [failAtZero, constOk, hk]
  have h := batch_fault_isolation failAtZero constOk (Json.str "data:image/jpeg;base64,AAAA")
      [Json.str "data:image/jpeg;base64,BBBB"] [] 0 "boom" hagree
  exact ⟨hagree, h.2.2.2.1 (by funext b; simp [failAtZero]) (by decide) (by decide), h.2.2.1⟩

/-- C8: the dispatch loop of the batch route partitions the images into
rounds of at most 3 frames (so never more than 3 describer calls are in
flight), loses and duplicates nothing, and executes the rounds strictly
sequentially. -/
theorem batch_concurrency_cap (f : Nat → String → DescribeOutcome) (i : Nat)
    (orders : List (List Nat)) (imgs : List Json) :
    (∀ c ∈ chunked imgs, c.length ≤ 3)
    ∧ (chunked imgs).flatten = imgs
    ∧ runBatches f i orders imgs = runChunks f i orders (chunked imgs) :=
  ⟨(chunked_spec imgs).1, (chunked_spec imgs).2, runBatches_runChunks f i orders imgs⟩

/-- Witness for `batch_concurrency_cap` on a four-image batch: its first
round has 3 frames (≤ 3) and the rounds flatten back to the batch. -/
theorem batch_concurrency_cap_witness :
    ([Json.null, Json.null, Json.null] : List Json).length ≤ 3
    ∧ (chunked [Json.null, Json.null, Json.null, Json.null]).flatten
        = [Json.null, Json.null, Json.null, Json.null] :=
  ⟨(batch_concurrency_cap constOk 0 [] [Json.null, Json.null, Json.null, Json.null]).1
      [Json.null, Json.null, Json.null] (List.mem_cons_self _ _),
    (batch_concurrency_cap constOk 0 [] [Json.null, Json.null, Json.null, Json.null]).2.1⟩

/-- C10 (amended): for every request whose body is a JSON value other than
`null` and whose `images` field is absent, not an array, or the empty array,
the route responds 400 with the fixed error body and makes zero describer
calls.  (A body that is literally JSON `null` instead throws at destructuring
and yields 500 — see the counterexample.) -/
theorem batch_request_validation (f : Nat → String → DescribeOutcome)
    (orders : List (List Nat)) (body : Json) (hbody : body ≠ Json.null)
    (h : getField body "images" = none
       ∨ (∀ xs, getField body "images" ≠ some (Json.arr xs))
       ∨ getField body "images" = some (Json.arr [])) :
    (POSTbatch f body orders).status = 400
    ∧ (POSTbatch f body orders).describerCalls = 0
    ∧ (POSTbatch f body orders).error = some imagesRequiredMsg := by
  rw [POSTbatch_nonnull f orders body hbody]
  rcases h with h | h | h
  · rw [h]
    exact ⟨rfl, rfl, rfl⟩
  · rcases hg : getField body "images" with _ | j
    · exact ⟨rfl, rfl, rfl⟩
    · rw [handleImages_not_array f orders j ?_]
      · exact ⟨rfl, rfl, rfl⟩
      · intro xs hxs
        exact h xs (by rw [hg, hxs])
  · rw [h]
    exact ⟨rfl, rfl, rfl⟩

/-- Witness for `batch_request_validation`: an object body without an
`images` field gets a 400 response and zero describer calls. -/
theorem batch_request_validation_witness :
    (Json.obj [] ≠ Json.null)
    ∧ (POSTbatch constOk (Json.obj []) []).status = 400
    ∧ (POSTbatch constOk (Json.obj []) []).describerCalls = 0
    ∧ (POSTbatch constOk (Json.obj []) []).error = some imagesRequiredMsg := by
  have hbody : Json.obj [] ≠ Json.null := fun hc => Json.noConfusion hc
  have h := batch_request_validation constOk [] (Json.obj []) hbody (Or.inl rfl)
  exact ⟨hbody, h.1, h.2.1, h.2.2⟩

/-- C10 counterexample: the JSON body `null` has no `images` field, yet the
route responds 500 (destructuring `null` throws before the validation guard
runs), not 400. -/
theorem batch_request_validation_counterexample :
    getField Json.null "images" = none
    ∧ (POSTbatch constOk Json.null []).status = 500 := ⟨rfl, rfl⟩

/-- C4 (code evaluation): when the summarize call fails for the two-record
session ["A", "B"], the message delivered to the caller is exactly the fixed
note "Failed to summarize analyses. Captured 2 frames." — the per-frame
texts "A" and "B" are not included, contradicting both the claim and the
source's own comment "Even if summary fails, provide the individual
analyses"; the delivered message is at least non-empty. -/
theorem summarize_fallback_drops_texts :
    (stopCapture ["A", "B"] SummarizeOutcome.fail).message
        = "Failed to summarize analyses. Captured 2 frames."
    ∧ (stopCapture ["A", "B"] SummarizeOutcome.fail).summarizerCalled = true
    ∧ (stopCapture ["A", "B"] SummarizeOutcome.fail).message ≠ "" := by decide

/-- C5 counterexample: a session ending with exactly one analysis record
still calls the external summarizer, and delivers the summarizer's output
("S") rather than the record's text ("A") verbatim. -/
theorem single_record_calls_summarizer :
    (stopCapture ["A"] (SummarizeOutcome.ok (some "S"))).summarizerCalled = true
    ∧ (stopCapture ["A"] (SummarizeOutcome.ok (some "S"))).message = "S" := by decide

/-- C5 (amended): a session ending with zero analysis records delivers the
fixed no-frames message without calling the summarizer; a session ending
with one or more records always calls the external summarizer (even for a
single record), and on its failure delivers the fixed count-only failure
note. -/
theorem session_end_result (analyses : List String) (out : SummarizeOutcome) :
    (analyses = [] → stopCapture analyses out
        = { message := noFramesMessage, summarizerCalled := false })
    ∧ (analyses ≠ [] → (stopCapture analyses out).summarizerCalled = true)
    ∧ (analyses ≠ [] → out = SummarizeOutcome.fail →
        (stopCapture analyses out).message
          = "Failed to summarize analyses. Captured "
              ++ toString analyses.length ++ " frames.") := by
  refine ⟨?_, ?_, ?_⟩
  · intro h
    subst h
    rfl
  · intro h
    have hlen : 0 < analyses.length := List.length_pos.mpr h
    cases out <;> simp [stopCapture, hlen]
  · intro h hout
    subst hout
    have hlen : 0 < analyses.length := List.length_pos.mpr h
    simp [stopCapture, hlen]

/-- Witness for `session_end_result` at the empty session and at a one-record
session. -/
theorem session_end_result_witness :
    stopCapture [] SummarizeOutcome.fail
        = { message := noFramesMessage, summarizerCalled := false }
    ∧ (stopCapture ["A"] SummarizeOutcome.fail).summarizerCalled = true :=
  ⟨(session_end_result [] SummarizeOutcome.fail).1 rfl,
    (session_end_result ["A"] SummarizeOutcome.fail).2.1 (by decide)⟩
